import Mathlib

/-!
Verification of the frame-selection, uncertainty-quantification and output
composition logic of `pocovidnet/evaluate_video.py` (class `VideoEvaluator`).

The embedding works over exact rationals (`ℚ`) in place of floating point and
over lists in place of numpy arrays.  External collaborators — model batch
inference, `cv2.resize`, the CAM algorithms, `overlay_precision_gauge`,
`confidence_to_precision`, numerical square root, and the augmentor — are
parameters of the embedding (fields of `EvalCtx` or explicit arguments); the
control flow and arithmetic of `evaluate_video.py` itself are translated
definition by definition.
-/

namespace PocovidNet

/-- `np.mean` of a one-dimensional array: sum divided by length.
In ℚ, division by zero yields 0 (numpy would warn and give NaN on an empty
array; no claim evaluates that case). -/
def npMean (xs : List ℚ) : ℚ := xs.sum / (xs.length : ℚ)

/-- `np.mean(rows, axis=0)` for a 2-d array given as a list of rows:
the per-column mean.  The column count is taken from the first row, as numpy
takes it from the (rectangular) array's shape. -/
def meanAxis0 (rows : List (List ℚ)) : List ℚ :=
  (List.range (rows.headD []).length).map
    (fun j => (rows.map (fun r => r.getD j 0)).sum / (rows.length : ℚ))

/-- `np.mean(mats, axis=0)` for a 3-d array given as a list of matrices:
the element-wise mean over the leading axis.  Used for
`np.mean(self.predictions, axis=0, keepdims=False)` (lines 54 and 89). -/
def meanMatrices (mats : List (List (List ℚ))) : List (List ℚ) :=
  (List.range (mats.headD []).length).map (fun i =>
    (List.range ((mats.headD []).headD []).length).map (fun j =>
      (mats.map (fun m => (m.getD i []).getD j 0)).sum / (mats.length : ℚ)))

/-- `np.var(rows, axis=0)`: per-column mean of squared deviations from the
per-column mean.  `np.std(rows, axis=0)` is its pointwise square root; the
square root is a numerical external and is kept as an abstract `ℚ → ℚ`
parameter where needed. -/
def varAxis0 (rows : List (List ℚ)) : List ℚ :=
  (List.range (rows.headD []).length).map
    (fun j =>
      (rows.map (fun r => (r.getD j 0 - (meanAxis0 rows).getD j 0) ^ 2)).sum
        / (rows.length : ℚ))

/-- `np.argmax` on a one-dimensional array: the index of the first occurrence
of the maximum (numpy documents first occurrence on ties; the fold replaces
the current best only on a strictly larger value, which keeps the first).
On an empty array numpy raises; here the unused value 0 is returned. -/
def argmax (xs : List ℚ) : Nat :=
  (List.range xs.length).foldl
    (fun best i => if xs.getD best 0 < xs.getD i 0 then i else best) 0

/-- `np.argsort(xs)`: a permutation of `0, …, len-1` listing the indices in
ascending order of value.  numpy's default kind is quicksort (introsort),
which numpy documents as not stable; this model realises one concrete sorting
permutation (insertion sort over the index list, ordered by value).  On
arrays whose values are pairwise distinct every correct ascending sort
produces the same permutation, so theorems below either use distinct values
or depend only on `argsort` being a sorting permutation of the index range,
never on a particular tie order. -/
def argsort (xs : List ℚ) : List Nat :=
  List.insertionSort (fun i j => xs.getD i 0 ≤ xs.getD j 0)
    (List.range xs.length)

/-- Python slicing `l[-k:]` for a natural `k` as used on line 96
(`np.argsort(...)[-nr_cams:]`): for `k > 0` the last `min k (length l)`
elements; for `k = 0` the slice is `l[-0:] = l[0:]`, the WHOLE list. -/
def lastSlice {α : Type} (l : List α) (k : Nat) : List α :=
  if k = 0 then l else l.drop (l.length - k)

/-- `np.where(xs > t)[0]` (line 98): the indices, in ascending order, whose
value strictly exceeds `t`. -/
def npWhereGt (xs : List ℚ) (t : ℚ) : List Nat :=
  (List.range xs.length).filter (fun i => decide (t < xs.getD i 0))

/-- Frame selection, lines 95–98 of `cam_important_frames`: top-`k` via
`np.argsort(col)[-nr_cams:]` when `nr_cams` is given (it takes precedence),
otherwise the threshold filter `np.where(col > threshold)[0]`.
`col` is the column `mean_preds[:, class_idx]`. -/
def select_frames (col : List ℚ) (threshold : ℚ) (nr_cams : Option Nat) :
    List Nat :=
  match nr_cams with
  | some k => lastSlice (argsort col) k
  | none => npWhereGt col threshold

/-- The state of a `VideoEvaluator` instance together with its external
collaborators, over an abstract image type `I`.
`predictions` is the PredictionMatrix (model × frame × class);
`image_arr` the decoded frames.  A model's batch inference is per-frame
independent (spec §6), so each model is embedded as its per-image prediction
function `I → List ℚ` and a batch call is a `map`.
`resizeScale` stands for `(cv2.resize(img, dims) * 255).astype(int)`
(lines 109–111), `computeCam` for `self.compute_cam` (whose body only
dispatches to the external CAM algorithms), `overlay` for
`overlay_precision_gauge`, `augment` for `next(self.augmentor.flow(·))`,
`sqrtF` for the numerical square root inside `np.std`, and `confToPrec`
for `confidence_to_precision`. -/
structure EvalCtx (I : Type) where
  predictions : List (List (List ℚ))
  image_arr : List I
  resizeScale : I → Nat × Nat → I
  computeCam : I → Nat → Nat → ℚ → Nat × Nat → I
  overlay : I → ℚ → I
  models : List (I → List ℚ)
  dropout_models : List (I → List ℚ)
  augment : I → I
  sqrtF : ℚ → ℚ
  confToPrec : ℚ → ℚ

/-- The fixed label list of `get_uncertainty` (line 251). -/
def uncertaintyClasses : List String :=
  ["covid", "pneumonia", "regular", "uninformative"]

/-- Lines 240–242: the batch
`np.asarray([image.astype(np.float32) for _ in range(runs)])`
— `runs` copies of the single image bound at that point. -/
def replicated_input_images {I : Type} (image : I) (runs : Nat) : List I :=
  List.replicate runs image

/-- In the aleatoric branch `image` has already been rebound (line 229) to
the single output of one augmentor call, so the batch of lines 240–242 is
`runs` copies of that one augmented image. -/
def aleatoric_input_images {I : Type} (augment : I → I) (image : I)
    (runs : Nat) : List I :=
  replicated_input_images (augment image) runs

/-- Lines 236–255 of `get_uncertainty`, shared by both methods: replicate the
image `runs` times, feed the batch through the model, take per-class mean and
standard deviation over the `runs` outputs, classify by the argmax of the
mean, and map the standard deviation at the predicted class through
`confidence_to_precision`.  `np.std` is `sqrtF` of the per-class variance. -/
def uncertainty_tail {I : Type} (predict : I → List ℚ)
    (sqrtF confToPrec : ℚ → ℚ) (image : I) (runs : Nat) : ℚ × String :=
  let input_images := replicated_input_images image runs
  let raw_logits := input_images.map predict
  let logits_mean := meanAxis0 raw_logits
  let logits_vars := varAxis0 raw_logits
  let pred_idx := argmax logits_mean
  let pred_class := uncertaintyClasses.getD pred_idx ""
  (confToPrec (sqrtF (logits_vars.getD pred_idx 0)), pred_class)

/-- `get_uncertainty` (lines 217–256).  Method `"epistemic"` uses the
dropout-enabled model on the raw image; `"aleatoric"` uses the standard model
on one augmented copy of the image; any other method prints a message and
returns `None` (here `none`) — the model functions are never consulted on
that branch.  Indexing `models[model_idx]` uses `getD` with a constant-empty
default; every caller passes an in-range index. -/
def get_uncertainty {I : Type} (models dropout_models : List (I → List ℚ))
    (augment : I → I) (sqrtF confToPrec : ℚ → ℚ) (model_idx : Nat) (image : I)
    (runs : Nat) (method : String) : Option (ℚ × String) :=
  if method = "epistemic" then
    let predict := dropout_models.getD model_idx (fun _ => [])
    some (uncertainty_tail predict sqrtF confToPrec image runs)
  else if method = "aleatoric" then
    let predict := models.getD model_idx (fun _ => [])
    let image2 := augment image
    some (uncertainty_tail predict sqrtF confToPrec image2 runs)
  else
    none

/-- Line 122: `np.argmax(self.predictions[:, b_frame, class_idx], axis=0)` —
the ensemble member with the highest raw prediction for this frame and
class. -/
def frame_model_idx (predictions : List (List (List ℚ))) (b class_idx : Nat) :
    Nat :=
  argmax (predictions.map (fun mp => (mp.getD b []).getD class_idx 0))

/-- Line 92: `class_idx = np.argmax(np.mean(np.array(mean_preds), axis=0))`. -/
def predicted_class_idx (mean_preds : List (List ℚ)) : Nat :=
  argmax (meanAxis0 mean_preds)

/-- The loop body of lines 120–137: for one selected frame `b`, pick the
highest-probability ensemble member, compute its CAM, and, when an
uncertainty method was requested, its uncertainty result (with `runs=10`).
Returns (CAM, `none` when no uncertainty was requested /
`some` of `get_uncertainty`'s own optional result otherwise). -/
def process_frame {I : Type} [Inhabited I] (ctx : EvalCtx I)
    (class_idx : Nat) (zeroing : ℚ) (cam_dims : Nat × Nat)
    (uncertainty_method : Option String) (b : Nat) :
    I × Option (Option (ℚ × String)) :=
  let model_idx := frame_model_idx ctx.predictions b class_idx
  let in_img := ctx.image_arr.getD b default
  let cam := ctx.computeCam in_img model_idx class_idx zeroing cam_dims
  match uncertainty_method with
  | none => (cam, none)
  | some m =>
      (cam, some (get_uncertainty ctx.models ctx.dropout_models ctx.augment
        ctx.sqrtF ctx.confToPrec model_idx in_img 10 m))

/-- Result of `cam_important_frames`: the CAM list when no save path is
given, or the composed output frame array when one is. -/
inductive CamOutput (I : Type) : Type where
  | cams : List I → CamOutput I
  | video : List I → CamOutput I
deriving DecidableEq

/-- Line 89: the mean prediction recomputed inside `cam_important_frames`. -/
def video_mean_preds {I : Type} (ctx : EvalCtx I) : List (List ℚ) :=
  meanMatrices ctx.predictions

/-- Line 92 applied to the instance state: the visualised class. -/
def video_class_idx {I : Type} (ctx : EvalCtx I) : Nat :=
  predicted_class_idx (video_mean_preds ctx)

/-- The score column `mean_preds[:, class_idx]` of lines 96/98. -/
def video_class_col {I : Type} (ctx : EvalCtx I) : List ℚ :=
  (video_mean_preds ctx).map (fun r => r.getD (video_class_idx ctx) 0)

/-- Lines 95–98 applied to the instance state: the selected frames. -/
def video_best_frames {I : Type} (ctx : EvalCtx I) (threshold : ℚ)
    (nr_cams : Option Nat) : List Nat :=
  select_frames (video_class_col ctx) threshold nr_cams

/-- The value a selected frame's slot holds after lines 143–150 when no
error occurs: the CAM, with the precision gauge overlaid when an
uncertainty result is present. -/
def compose_final {I : Type} (overlay : I → ℚ → I)
    (t : Nat × I × Option (Option (ℚ × String))) : I :=
  match t.2.2 with
  | some (some pr) => overlay t.2.1 pr.1
  | _ => t.2.1

/-- Lines 143–150: write each selected frame's CAM into the resized frame
array and, when uncertainty was requested, overlay the precision gauge with
`precision_best_frames[j][0]`.  When `get_uncertainty` returned `None`
(`some none` here), Python's `None[0]` aborts the run with a `TypeError`;
that abort is the `Except.error`. -/
def compose_output {I : Type} [Inhabited I] (overlay : I → ℚ → I) :
    List (Nat × I × Option (Option (ℚ × String))) → List I →
    Except String (List I)
  | [], arr => Except.ok arr
  | t :: rest, arr =>
    let arr1 := arr.set t.1 t.2.1
    match t.2.2 with
    | none => compose_output overlay rest arr1
    | some none =>
        Except.error "TypeError: NoneType object is not subscriptable"
    | some (some pr) =>
        compose_output overlay rest
          (arr1.set t.1 (overlay (arr1.getD t.1 default) pr.1))

/-- `cam_important_frames` (lines 57–158).  The guard of lines 78–81 raises
`ValueError` first; then the mean prediction, the visualised class, the
selected frames, the resized `copied_arr`, and per selected frame the CAM
and optional uncertainty; without a save path the CAM array is returned,
with one the composed frame array (whose video encoding is external). -/
def cam_important_frames {I : Type} [Inhabited I] (ctx : EvalCtx I)
    (threshold : ℚ) (nr_cams : Option Nat) (zeroing : ℚ)
    (save_video_path : Option String) (uncertainty_method : Option String)
    (cam_dims : Nat × Nat) : Except String (CamOutput I) :=
  if uncertainty_method.isSome ∧ cam_dims ≠ (1000, 1000) then
    Except.error
      "When using uncertainty estimation, output size is restricted to (1000,1000)."
  else
    let best_frames := video_best_frames ctx threshold nr_cams
    let copied_arr := ctx.image_arr.map (fun img => ctx.resizeScale img cam_dims)
    let per_frame := best_frames.map
      (fun b => (b, process_frame ctx (video_class_idx ctx) zeroing cam_dims
        uncertainty_method b))
    match save_video_path with
    | none => Except.ok (CamOutput.cams (per_frame.map (fun t => t.2.1)))
    | some _ => (compose_output ctx.overlay per_frame copied_arr).map
        CamOutput.video

/-- `__call__` (lines 38–55): stack each model's batch prediction over the
frame array into the PredictionMatrix, and return it with its mean over the
model axis. -/
def videoEvaluator_call {I : Type} (models : List (List I → List (List ℚ)))
    (image_arr : List I) : List (List (List ℚ)) × List (List ℚ) :=
  let predictions := models.map (fun m => m image_arr)
  (predictions, meanMatrices predictions)

/-- A small concrete evaluator state over `I = Nat` (one model, one frame,
two classes, division-free whole-rational scores) used to instantiate the
claim theorems on concrete inputs.  The single model predicts `[9, 1]`, so
class 0 is the visualised class and frame 0 is above a threshold of 7. -/
def demoCtx : EvalCtx Nat where
  predictions := [[[9, 1]]]
  image_arr := [5]
  resizeScale := fun i _ => i
  computeCam := fun i _ _ _ _ => i
  overlay := fun i _ => i
  models := [fun _ => [9, 1]]
  dropout_models := [fun _ => [9, 1]]
  augment := fun i => i + 1
  sqrtF := id
  confToPrec := id

/-! ### Basic lemmas about the numpy primitives -/

lemma getD_map_range {α : Type} (n : Nat) (f : Nat → α) (i : Nat) (d : α) :
    ((List.range n).map f).getD i d = if i < n then f i else d := by
  rw [List.getD_eq_getElem?_getD, List.getElem?_map]
  by_cases h : i < n
  · rw [List.getElem?_range h]
    simp [h]
  · rw [List.getElem?_eq_none (by simpa using Nat.le_of_not_lt h)]
    simp [h]

lemma argsort_perm (xs : List ℚ) :
    (argsort xs).Perm (List.range xs.length) :=
  List.perm_insertionSort _ _

lemma argsort_length (xs : List ℚ) : (argsort xs).length = xs.length := by
  rw [(argsort_perm xs).length_eq, List.length_range]

lemma mem_argsort (xs : List ℚ) (i : Nat) :
    i ∈ argsort xs ↔ i < xs.length := by
  rw [(argsort_perm xs).mem_iff, List.mem_range]

lemma argsort_nodup (xs : List ℚ) : (argsort xs).Nodup :=
  (argsort_perm xs).symm.nodup (List.nodup_range _)

lemma argmax_foldl_invariant (xs : List ℚ) :
    ∀ (l : List Nat) (best : Nat),
      (List.foldl (fun b i => if xs.getD b 0 < xs.getD i 0 then i else b)
          best l = best
        ∨ List.foldl (fun b i => if xs.getD b 0 < xs.getD i 0 then i else b)
            best l ∈ l)
      ∧ xs.getD best 0 ≤
          xs.getD (List.foldl
            (fun b i => if xs.getD b 0 < xs.getD i 0 then i else b) best l) 0
      ∧ ∀ i ∈ l, xs.getD i 0 ≤
          xs.getD (List.foldl
            (fun b i => if xs.getD b 0 < xs.getD i 0 then i else b) best l) 0 := by
  intro l
  induction l with
  | nil =>
      intro best
      exact ⟨Or.inl rfl, le_refl _, fun i hi => absurd hi (List.not_mem_nil i)⟩
  | cons a l ih =>
      intro best
      simp only [List.foldl_cons]
      obtain ⟨hmem, hle, hall⟩ :=
        ih (if xs.getD best 0 < xs.getD a 0 then a else best)
      have hba : xs.getD best 0 ≤
          xs.getD (if xs.getD best 0 < xs.getD a 0 then a else best) 0 := by
        by_cases h : xs.getD best 0 < xs.getD a 0
        · simp only [if_pos h]
          exact le_of_lt h
        · simp only [if_neg h]
          exact le_refl _
      have haa : xs.getD a 0 ≤
          xs.getD (if xs.getD best 0 < xs.getD a 0 then a else best) 0 := by
        by_cases h : xs.getD best 0 < xs.getD a 0
        · simp only [if_pos h]
          exact le_refl _
        · simp only [if_neg h]
          exact le_of_not_lt h
      refine ⟨?_, le_trans hba hle, ?_⟩
      · rcases hmem with h | h
        · rw [h]
          by_cases hc : xs.getD best 0 < xs.getD a 0
          · rw [if_pos hc]
            exact Or.inr (List.mem_cons_self a l)
          · rw [if_neg hc]
            exact Or.inl rfl
        · exact Or.inr (List.mem_cons_of_mem a h)
      · intro i hi
        rcases List.mem_cons.mp hi with rfl | hi
        · exact le_trans haa hle
        · exact hall i hi

/-- `np.argmax` picks an index whose value dominates every entry. -/
lemma argmax_le (xs : List ℚ) (i : Nat) (hi : i < xs.length) :
    xs.getD i 0 ≤ xs.getD (argmax xs) 0 :=
  (argmax_foldl_invariant xs (List.range xs.length) 0).2.2 i
    (List.mem_range.mpr hi)

/-- On a nonempty array `np.argmax` returns a valid index. -/
lemma argmax_lt_length (xs : List ℚ) (h : xs ≠ []) :
    argmax xs < xs.length := by
  have hpos : 0 < xs.length := List.length_pos.mpr h
  rcases (argmax_foldl_invariant xs (List.range xs.length) 0).1 with h0 | hm
  · rw [argmax, h0]
    exact hpos
  · exact List.mem_range.mp hm

lemma getD_map_col (mp : List (List ℚ)) (c f : Nat) (hf : f < mp.length) :
    (mp.map (fun r => r.getD c 0)).getD f 0 = (mp.getD f []).getD c 0 := by
  have hf' : f < (mp.map (fun r => r.getD c 0)).length := by simpa using hf
  rw [List.getD_eq_getElem _ _ hf', List.getElem_map,
    List.getD_eq_getElem _ _ hf]

/-! ### Claim theorems -/

/-- C1.  In threshold mode (`nr_cams is None`), a frame index `f` is in the
selected set iff it is a valid frame index and `MeanPrediction[f, class_idx]`
is strictly greater than the threshold; equality with the threshold
excludes the frame (line 98 uses `>`). -/
theorem threshold_selects_iff_strictly_above (mean_preds : List (List ℚ))
    (class_idx : Nat) (t : ℚ) (f : Nat) :
    f ∈ select_frames (mean_preds.map (fun r => r.getD class_idx 0)) t none ↔
      f < mean_preds.length ∧ t < (mean_preds.getD f []).getD class_idx 0 := by
  unfold select_frames npWhereGt
  rw [List.mem_filter, List.mem_range, List.length_map]
  constructor
  · rintro ⟨hf, hp⟩
    refine ⟨hf, ?_⟩
    have hp' := of_decide_eq_true hp
    rwa [getD_map_col _ _ _ hf] at hp'
  · rintro ⟨hf, hp⟩
    refine ⟨hf, ?_⟩
    rw [decide_eq_true_eq, getD_map_col _ _ _ hf]
    exact hp

/-- C2, counterexample.  Selecting `nr_cams = 0` frames from a three-frame
score column does NOT return an empty selection: the Python slice
`np.argsort(col)[-0:]` is `[0:]` and returns the whole sorted index array,
here of length 3 (scores scaled by 10 to stay division-free). -/
theorem topk_zero_returns_all_counterexample :
    select_frames [(1 : ℚ), 9, 5] (7 : ℚ) (some 0) ≠ [] ∧
      (select_frames [(1 : ℚ), 9, 5] (7 : ℚ) (some 0)).length = 3 := by
  decide

/-- C2, amended.  In top-k mode the selection has exactly `k` indices when
`1 ≤ k` and the video has at least `k` frames, and fewer (all of them) only
when fewer frames exist; but for `k = 0` the slice `[-0:]` keeps the whole
ascending-sorted index array, so every valid frame index is selected rather
than none. -/
theorem topk_selection_count_amended (col : List ℚ) (t : ℚ) (k : Nat) :
    (1 ≤ k → (select_frames col t (some k)).length = min k col.length)
    ∧ (k = 0 → (select_frames col t (some k)).length = col.length
        ∧ ∀ f, f ∈ select_frames col t (some k) ↔ f < col.length) := by
  have hsel : select_frames col t (some k) = lastSlice (argsort col) k := rfl
  rw [hsel]
  constructor
  · intro hk
    unfold lastSlice
    rw [if_neg (by omega), List.length_drop, argsort_length]
    omega
  · intro hk
    subst hk
    unfold lastSlice
    rw [if_pos rfl]
    exact ⟨argsort_length col, fun f => mem_argsort col f⟩

/-- Witness for `topk_selection_count_amended` at concrete inputs exercising
both the `1 ≤ k` and the `k = 0` hypotheses. -/
theorem topk_selection_count_amended_witness :
    (select_frames [(1 : ℚ), 9, 5] (7 : ℚ) (some 2)).length = min 2 3 ∧
      (select_frames [(1 : ℚ), 9, 5] (7 : ℚ) (some 0)).length = 3 :=
  ⟨(topk_selection_count_amended [(1 : ℚ), 9, 5] (7 : ℚ) 2).1 (by decide),
   by
    have h :=
      ((topk_selection_count_amended [(1 : ℚ), 9, 5] (7 : ℚ) 0).2 rfl).1
    simpa using h⟩

/-- C5.  Whenever an uncertainty method is requested together with output
dimensions other than `(1000, 1000)`, `cam_important_frames` stops at the
configuration guard of lines 78–81 with the `ValueError`: the returned value
is exactly that error, so no frame selection, CAM computation, resizing or
output composition takes place (the embedding is pure, so the evaluator
state is trivially unchanged). -/
theorem uncertainty_dims_guard_rejects_before_processing {I : Type}
    [Inhabited I] (ctx : EvalCtx I) (t : ℚ) (nr : Option Nat) (z : ℚ)
    (svp : Option String) (m : String) (dims : Nat × Nat)
    (h : dims ≠ (1000, 1000)) :
    cam_important_frames ctx t nr z svp (some m) dims =
      Except.error
        "When using uncertainty estimation, output size is restricted to (1000,1000)." := by
  unfold cam_important_frames
  rw [if_pos ⟨rfl, h⟩]

/-- Witness for `uncertainty_dims_guard_rejects_before_processing`:
epistemic uncertainty with the default `(224, 224)` dimensions is rejected. -/
theorem uncertainty_dims_guard_witness :
    cam_important_frames demoCtx (7 : ℚ) none (1 : ℚ) none (some "epistemic")
        (224, 224) =
      Except.error
        "When using uncertainty estimation, output size is restricted to (1000,1000)." :=
  uncertainty_dims_guard_rejects_before_processing demoCtx 7 none 1 none
    "epistemic" (224, 224) (by decide)

/-- C7.  For any method string other than `"epistemic"` and `"aleatoric"`,
`get_uncertainty` returns `none` (the Python bare `return` after the printed
message), with no exception; the result is the same for every choice of
model functions, so no model inference takes place on this branch. -/
theorem unknown_method_returns_none_without_inference {I : Type}
    (models dropout_models : List (I → List ℚ)) (augment : I → I)
    (sqrtF confToPrec : ℚ → ℚ) (model_idx : Nat) (image : I) (runs : Nat)
    (method : String) (h1 : method ≠ "epistemic") (h2 : method ≠ "aleatoric") :
    get_uncertainty models dropout_models augment sqrtF confToPrec model_idx
      image runs method = none := by
  unfold get_uncertainty
  rw [if_neg h1, if_neg h2]

/-- Witness for `unknown_method_returns_none_without_inference` at the
concrete method string `"dropout"`. -/
theorem unknown_method_returns_none_witness :
    get_uncertainty demoCtx.models demoCtx.dropout_models demoCtx.augment
      demoCtx.sqrtF demoCtx.confToPrec 0 5 10 "dropout" = none :=
  unknown_method_returns_none_without_inference demoCtx.models
    demoCtx.dropout_models demoCtx.augment demoCtx.sqrtF demoCtx.confToPrec
    0 5 10 "dropout" (by decide) (by decide)

/-- C6.  For a nonempty rectangular PredictionMatrix of shape (M, F, C)
produced by `__call__`, the returned MeanPrediction has shape (F, C) and its
(i, j) entry is the mean over the model axis of the per-model predictions. -/
theorem mean_prediction_shape_and_value {I : Type}
    (models : List (List I → List (List ℚ))) (image_arr : List I) (F C : Nat)
    (hM : 1 ≤ models.length)
    (hshape : ∀ p ∈ (videoEvaluator_call models image_arr).1,
        p.length = F ∧ ∀ r ∈ p, r.length = C) :
    ((videoEvaluator_call models image_arr).2).length = F ∧
      (∀ row ∈ (videoEvaluator_call models image_arr).2, row.length = C) ∧
      ∀ i < F, ∀ j < C,
        (((videoEvaluator_call models image_arr).2).getD i []).getD j 0 =
          (((videoEvaluator_call models image_arr).1).map
              (fun p => (p.getD i []).getD j 0)).sum /
            ((((videoEvaluator_call models image_arr).1).length : ℚ)) := by
  have hpreds :
      (videoEvaluator_call models image_arr).1 =
        models.map (fun m => m image_arr) := rfl
  obtain ⟨p0, rest, hpe⟩ :
      ∃ p0 rest, models.map (fun m => m image_arr) = p0 :: rest := by
    cases hm : models with
    | nil => rw [hm] at hM; simp at hM
    | cons m ms => exact ⟨m image_arr, ms.map (fun m => m image_arr), by simp⟩
  have hp0 : p0 ∈ models.map (fun m => m image_arr) := by
    rw [hpe]; exact List.mem_cons_self _ _
  have hp0F : p0.length = F := (hshape p0 (hpreds ▸ hp0)).1
  have hmp :
      (videoEvaluator_call models image_arr).2 =
        meanMatrices (models.map (fun m => m image_arr)) := rfl
  have hhead : (models.map (fun m => m image_arr)).headD [] = p0 := by
    rw [hpe]; rfl
  have hlen : (meanMatrices (models.map (fun m => m image_arr))).length = F := by
    unfold meanMatrices
    rw [List.length_map, List.length_range, hhead, hp0F]
  refine ⟨hmp ▸ hlen, ?_, ?_⟩
  · intro row hrow
    rw [hmp] at hrow
    unfold meanMatrices at hrow
    rw [List.mem_map] at hrow
    obtain ⟨i, hi, hrow⟩ := hrow
    rw [List.mem_range, hhead, hp0F] at hi
    have hFpos : 0 < F := Nat.lt_of_le_of_lt (Nat.zero_le i) hi
    have hp0pos : 0 < p0.length := by rw [hp0F]; exact hFpos
    obtain ⟨r0, rrest, hre⟩ :=
      List.exists_cons_of_ne_nil (List.length_pos.mp hp0pos)
    have hr0C : r0.length = C :=
      (hshape p0 (hpreds ▸ hp0)).2 r0 (by rw [hre]; exact List.mem_cons_self _ _)
    rw [← hrow, List.length_map, List.length_range, hhead, hre]
    simpa using hr0C
  · intro i hi j hj
    rw [hmp, hpreds]
    have hFpos : 0 < F := Nat.lt_of_le_of_lt (Nat.zero_le i) hi
    have hp0pos : 0 < p0.length := by rw [hp0F]; exact hFpos
    obtain ⟨r0, rrest, hre⟩ :=
      List.exists_cons_of_ne_nil (List.length_pos.mp hp0pos)
    have hr0C : r0.length = C :=
      (hshape p0 (hpreds ▸ hp0)).2 r0 (by rw [hre]; exact List.mem_cons_self _ _)
    unfold meanMatrices
    rw [hhead, hp0F, hre]
    rw [getD_map_range]
    rw [if_pos hi]
    rw [getD_map_range]
    have : (r0 :: rrest).headD [] = r0 := rfl
    rw [this] at *
    rw [show r0.length = C from hr0C, if_pos hj]

/-- Witness for `mean_prediction_shape_and_value`: two one-frame, two-class
models with predictions `[[9, 1]]` and `[[5, 3]]`. -/
theorem mean_prediction_shape_and_value_witness :
    ((videoEvaluator_call (I := Nat)
        [fun _ => [[9, 1]], fun _ => [[5, 3]]] [5]).2).length = 1 ∧
      (∀ row ∈ (videoEvaluator_call (I := Nat)
          [fun _ => [[9, 1]], fun _ => [[5, 3]]] [5]).2, row.length = 2) ∧
      ∀ i < 1, ∀ j < 2,
        (((videoEvaluator_call (I := Nat)
            [fun _ => [[9, 1]], fun _ => [[5, 3]]] [5]).2).getD i []).getD j 0 =
          (((videoEvaluator_call (I := Nat)
              [fun _ => [[9, 1]], fun _ => [[5, 3]]] [5]).1).map
              (fun p => (p.getD i []).getD j 0)).sum /
            ((((videoEvaluator_call (I := Nat)
              [fun _ => [[9, 1]], fun _ => [[5, 3]]] [5]).1).length : ℚ)) :=
  mean_prediction_shape_and_value [fun _ => [[9, 1]], fun _ => [[5, 3]]] [5]
    1 2 (by decide) (by intro p hp; fin_cases hp <;> simp)

lemma getD_map_lt {α β : Type} (f : α → β) (l : List α) (m : Nat) (d : β)
    (d' : α) (hm : m < l.length) :
    (l.map f).getD m d = f (l.getD m d') := by
  have hm' : m < (l.map f).length := by simpa using hm
  rw [List.getD_eq_getElem _ _ hm', List.getElem_map,
    List.getD_eq_getElem _ _ hm]

lemma map_getD_range_self (l : List ℚ) :
    (List.range l.length).map (fun j => l.getD j 0) = l := by
  apply List.ext_getElem
  · simp
  · intro i h1 h2
    have hi : i < l.length := by simpa using h2
    rw [List.getElem_map]
    rw [List.getElem_range]
    exact (List.getD_eq_getElem l 0 hi).symm ▸ rfl

lemma getD_replicate_zero (n i : Nat) :
    (List.replicate n (0 : ℚ)).getD i 0 = 0 := by
  rw [List.getD_eq_getElem?_getD, List.getElem?_replicate]
  split <;> rfl

/-- Per-column mean of `runs` identical rows is the row itself. -/
lemma meanAxis0_replicate (runs : Nat) (v : List ℚ) (h : 1 ≤ runs) :
    meanAxis0 (List.replicate runs v) = v := by
  obtain ⟨n, rfl⟩ : ∃ n, runs = n + 1 := ⟨runs - 1, by omega⟩
  unfold meanAxis0
  have hhead : (List.replicate (n + 1) v).headD [] = v := by
    rw [List.replicate_succ]
    rfl
  rw [hhead]
  have hcols : ∀ j, ((List.replicate (n + 1) v).map (fun r => r.getD j 0)).sum
      / (((List.replicate (n + 1) v).length : ℚ)) = v.getD j 0 := by
    intro j
    rw [List.map_replicate, List.sum_replicate, List.length_replicate,
      nsmul_eq_mul]
    have hne : ((n + 1 : Nat) : ℚ) ≠ 0 := by exact_mod_cast Nat.succ_ne_zero n
    rw [mul_comm, mul_div_assoc, div_self hne, mul_one]
  calc (List.range v.length).map
        (fun j => ((List.replicate (n + 1) v).map (fun r => r.getD j 0)).sum
          / (((List.replicate (n + 1) v).length : ℚ)))
      = (List.range v.length).map (fun j => v.getD j 0) := by
        apply List.map_congr_left
        intro j _
        exact hcols j
    _ = v := map_getD_range_self v

/-- Per-column variance of `runs` identical rows is zero in every column. -/
lemma varAxis0_replicate (runs : Nat) (v : List ℚ) (h : 1 ≤ runs) :
    varAxis0 (List.replicate runs v) = List.replicate v.length 0 := by
  obtain ⟨n, rfl⟩ : ∃ n, runs = n + 1 := ⟨runs - 1, by omega⟩
  unfold varAxis0
  have hhead : (List.replicate (n + 1) v).headD [] = v := by
    rw [List.replicate_succ]
    rfl
  rw [hhead, meanAxis0_replicate _ _ h]
  have hcols : ∀ j,
      ((List.replicate (n + 1) v).map
          (fun r => (r.getD j 0 - v.getD j 0) ^ 2)).sum
        / (((List.replicate (n + 1) v).length : ℚ)) = 0 := by
    intro j
    rw [List.map_replicate, sub_self]
    norm_num
  calc (List.range v.length).map
        (fun j => ((List.replicate (n + 1) v).map
            (fun r => (r.getD j 0 - v.getD j 0) ^ 2)).sum
          / (((List.replicate (n + 1) v).length : ℚ)))
      = (List.range v.length).map (fun _ => (0 : ℚ)) := by
        apply List.map_congr_left
        intro j _
        exact hcols j
    _ = List.replicate v.length 0 := by
        rw [List.map_const', List.length_range]

/-- On a batch of `runs ≥ 1` identical images, the mean of the logits is the
single prediction, the standard deviation at the predicted class is zero,
and `uncertainty_tail` returns `confToPrec (sqrtF 0)`. -/
lemma uncertainty_tail_replicate {I : Type} (predict : I → List ℚ)
    (sqrtF confToPrec : ℚ → ℚ) (img : I) (runs : Nat) (h : 1 ≤ runs) :
    uncertainty_tail predict sqrtF confToPrec img runs =
      (confToPrec (sqrtF 0),
        uncertaintyClasses.getD (argmax (predict img)) "") := by
  simp only [uncertainty_tail, replicated_input_images]
  rw [List.map_replicate, meanAxis0_replicate _ _ h, varAxis0_replicate _ _ h,
    getD_replicate_zero]

/-- C4, demonstrating the code bug.  In aleatoric mode the augmentor is
invoked exactly once: every element of the batch fed to the model equals the
single augmented copy `augment image`, so the `runs` predictions are all
identical rather than coming from differently augmented copies, the
per-class standard deviation is `sqrtF 0`, and the returned precision is
`confToPrec (sqrtF 0)` for every model — the spread that aleatoric
uncertainty is meant to measure is identically zero. -/
theorem aleatoric_single_augmentation_zero_variance {I : Type}
    (models dropout_models : List (I → List ℚ)) (augment : I → I)
    (sqrtF confToPrec : ℚ → ℚ) (model_idx : Nat) (image : I) (runs : Nat)
    (hruns : 1 ≤ runs) :
    (∀ x ∈ aleatoric_input_images augment image runs, x = augment image) ∧
      get_uncertainty models dropout_models augment sqrtF confToPrec model_idx
          image runs "aleatoric" =
        some (confToPrec (sqrtF 0),
          uncertaintyClasses.getD
            (argmax ((models.getD model_idx (fun _ => []))
              (augment image))) "") := by
  constructor
  · intro x hx
    exact List.eq_of_mem_replicate hx
  · unfold get_uncertainty
    rw [if_neg (by decide), if_pos rfl]
    show some (uncertainty_tail (models.getD model_idx fun _ => [])
        sqrtF confToPrec (augment image) runs) = _
    rw [uncertainty_tail_replicate _ _ _ _ _ hruns]

/-- Witness for `aleatoric_single_augmentation_zero_variance` on the concrete
demo evaluator with `runs = 10`. -/
theorem aleatoric_single_augmentation_witness :
    (∀ x ∈ aleatoric_input_images demoCtx.augment 5 10,
        x = demoCtx.augment 5) ∧
      get_uncertainty demoCtx.models demoCtx.dropout_models demoCtx.augment
          demoCtx.sqrtF demoCtx.confToPrec 0 5 10 "aleatoric" =
        some (demoCtx.confToPrec (demoCtx.sqrtF 0),
          uncertaintyClasses.getD
            (argmax ((demoCtx.models.getD 0 (fun _ => []))
              (demoCtx.augment 5))) "") :=
  aleatoric_single_augmentation_zero_variance demoCtx.models
    demoCtx.dropout_models demoCtx.augment demoCtx.sqrtF demoCtx.confToPrec
    0 5 10 (by decide)

/-- C8.  For every frame `b` processed by the CAM loop there is a model
index `mi` that is in range and whose raw prediction
`PredictionMatrix[mi, b, class_idx]` is maximal over the model axis, and it
is this `mi` that is passed both to the CAM computation and, when an
uncertainty method is requested, to `get_uncertainty`. -/
theorem cam_uses_highest_prediction_model {I : Type} [Inhabited I]
    (ctx : EvalCtx I) (class_idx : Nat) (z : ℚ) (dims : Nat × Nat)
    (um : Option String) (b : Nat) (hM : ctx.predictions ≠ []) :
    ∃ mi, mi < ctx.predictions.length ∧
      (∀ m, m < ctx.predictions.length →
        ((ctx.predictions.getD m []).getD b []).getD class_idx 0 ≤
          ((ctx.predictions.getD mi []).getD b []).getD class_idx 0) ∧
      (process_frame ctx class_idx z dims um b).1 =
        ctx.computeCam (ctx.image_arr.getD b default) mi class_idx z dims ∧
      ∀ meth, um = some meth →
        (process_frame ctx class_idx z dims um b).2 =
          some (get_uncertainty ctx.models ctx.dropout_models ctx.augment
            ctx.sqrtF ctx.confToPrec mi (ctx.image_arr.getD b default)
            10 meth) := by
  refine ⟨frame_model_idx ctx.predictions b class_idx, ?_, ?_, ?_, ?_⟩
  · unfold frame_model_idx
    have hne : ctx.predictions.map
        (fun mp => (mp.getD b []).getD class_idx 0) ≠ [] := by
      simpa using hM
    have := argmax_lt_length _ hne
    simpa using this
  · intro m hm
    unfold frame_model_idx
    have hmi := argmax_lt_length
      (ctx.predictions.map (fun mp => (mp.getD b []).getD class_idx 0))
      (by simpa using hM)
    have hle := argmax_le
      (ctx.predictions.map (fun mp => (mp.getD b []).getD class_idx 0)) m
      (by simpa using hm)
    rwa [getD_map_lt _ _ _ _ [] hm,
      getD_map_lt _ _ _ _ [] (by simpa using hmi)] at hle
  · cases um <;> rfl
  · intro meth hmeth
    subst hmeth
    rfl

/-- Witness for `cam_uses_highest_prediction_model` on the demo evaluator
with epistemic uncertainty requested for frame 0 and class 0. -/
theorem cam_uses_highest_prediction_model_witness :
    ∃ mi, mi < demoCtx.predictions.length ∧
      (∀ m, m < demoCtx.predictions.length →
        ((demoCtx.predictions.getD m []).getD 0 []).getD 0 0 ≤
          ((demoCtx.predictions.getD mi []).getD 0 []).getD 0 0) ∧
      (process_frame demoCtx 0 (13 : ℚ) (1000, 1000)
          (some "epistemic") 0).1 =
        demoCtx.computeCam (demoCtx.image_arr.getD 0 default) mi 0 (13 : ℚ)
          (1000, 1000) ∧
      ∀ meth, (some "epistemic" : Option String) = some meth →
        (process_frame demoCtx 0 (13 : ℚ) (1000, 1000)
            (some "epistemic") 0).2 =
          some (get_uncertainty demoCtx.models demoCtx.dropout_models
            demoCtx.augment demoCtx.sqrtF demoCtx.confToPrec mi
            (demoCtx.image_arr.getD 0 default) 10 meth) :=
  cam_uses_highest_prediction_model demoCtx 0 (13 : ℚ) (1000, 1000)
    (some "epistemic") 0 (by decide)

lemma getD_set_of_ne {α : Type} (l : List α) (n i : Nat) (v d : α)
    (h : n ≠ i) : (l.set n v).getD i d = l.getD i d := by
  rw [List.getD_eq_getElem?_getD, List.getElem?_set, if_neg h,
    List.getD_eq_getElem?_getD]

lemma getD_set_self {α : Type} (l : List α) (n : Nat) (v d : α)
    (h : n < l.length) : (l.set n v).getD n d = v := by
  rw [List.getD_eq_getElem?_getD, List.getElem?_set, if_pos rfl, if_pos h]
  rfl

/-- The selected frame list never repeats an index, in either mode. -/
lemma select_frames_nodup (col : List ℚ) (t : ℚ) (nr : Option Nat) :
    (select_frames col t nr).Nodup := by
  cases nr with
  | none => exact (List.nodup_range col.length).filter _
  | some k =>
      show (lastSlice (argsort col) k).Nodup
      unfold lastSlice
      split
      · exact argsort_nodup col
      · exact (List.drop_sublist _ _).nodup (argsort_nodup col)

/-- Every selected frame index is a valid index into the score column. -/
lemma select_frames_mem_lt (col : List ℚ) (t : ℚ) (nr : Option Nat)
    (b : Nat) (hb : b ∈ select_frames col t nr) : b < col.length := by
  cases nr with
  | none =>
      have := List.mem_filter.mp hb
      exact List.mem_range.mp this.1
  | some k =>
      have hb' : b ∈ lastSlice (argsort col) k := hb
      unfold lastSlice at hb'
      rw [← mem_argsort]
      by_cases hk : k = 0
      · rwa [if_pos hk] at hb'
      · rw [if_neg hk] at hb'
        exact List.mem_of_mem_drop hb'

/-- When no item carries a failed uncertainty lookup (`some none`), the
composition loop of lines 143–150 succeeds and the resulting array holds,
at each item's index, that item's composed value, and elsewhere the
original array's value. -/
lemma compose_output_ok {I : Type} [Inhabited I] (overlay : I → ℚ → I) :
    ∀ (items : List (Nat × I × Option (Option (ℚ × String)))) (arr : List I),
      (∀ x ∈ items, x.2.2 ≠ some none) →
      (items.map (fun x => x.1)).Nodup →
      (∀ x ∈ items, x.1 < arr.length) →
      ∃ out, compose_output overlay items arr = Except.ok out ∧
        out.length = arr.length ∧
        (∀ i, i ∉ items.map (fun x => x.1) →
          out.getD i default = arr.getD i default) ∧
        (∀ x ∈ items, out.getD x.1 default = compose_final overlay x) := by
  intro items
  induction items with
  | nil =>
      intro arr _ _ _
      exact ⟨arr, rfl, rfl, fun i _ => rfl,
        fun x hx => absurd hx (List.not_mem_nil x)⟩
  | cons hd rest ih =>
      intro arr hno hnd hlt
      have hhd_lt : hd.1 < arr.length := hlt hd (List.mem_cons_self _ _)
      have hnd' : (rest.map (fun x => x.1)).Nodup :=
        (List.nodup_cons.mp hnd).2
      have hhd_notin : hd.1 ∉ rest.map (fun x => x.1) :=
        (List.nodup_cons.mp hnd).1
      have hstep : ∃ v, compose_output overlay (hd :: rest) arr =
          compose_output overlay rest (arr.set hd.1 v) ∧
          v = compose_final overlay hd := by
        rcases hp : hd.2.2 with _ | op
        · refine ⟨hd.2.1, ?_, ?_⟩
          · show (match hd.2.2 with
              | none => compose_output overlay rest (arr.set hd.1 hd.2.1)
              | some none =>
                  Except.error "TypeError: NoneType object is not subscriptable"
              | some (some pr) =>
                  compose_output overlay rest
                    ((arr.set hd.1 hd.2.1).set hd.1
                      (overlay ((arr.set hd.1 hd.2.1).getD hd.1 default)
                        pr.1))) = _
            rw [hp]
          · unfold compose_final
            rw [hp]
        · rcases op with _ | pr
          · exact absurd hp (hno hd (List.mem_cons_self _ _))
          · refine ⟨overlay hd.2.1 pr.1, ?_, ?_⟩
            · show (match hd.2.2 with
                | none => compose_output overlay rest (arr.set hd.1 hd.2.1)
                | some none =>
                    Except.error
                      "TypeError: NoneType object is not subscriptable"
                | some (some pr) =>
                    compose_output overlay rest
                      ((arr.set hd.1 hd.2.1).set hd.1
                        (overlay ((arr.set hd.1 hd.2.1).getD hd.1 default)
                          pr.1))) = _
              rw [hp]
              show compose_output overlay rest
                  ((arr.set hd.1 hd.2.1).set hd.1
                    (overlay ((arr.set hd.1 hd.2.1).getD hd.1 default)
                      pr.1)) = _
              rw [List.set_set, getD_set_self arr hd.1 hd.2.1 default hhd_lt]
            · unfold compose_final
              rw [hp]
      obtain ⟨v, hv, hvval⟩ := hstep
      obtain ⟨out, hout, hlen, hother, hsel⟩ :=
        ih (arr.set hd.1 v)
          (fun x hx => hno x (List.mem_cons_of_mem _ hx)) hnd'
          (fun x hx => by
            rw [List.length_set]
            exact hlt x (List.mem_cons_of_mem _ hx))
      refine ⟨out, by rw [hv, hout], by rw [hlen, List.length_set], ?_, ?_⟩
      · intro i hi
        rw [List.map_cons] at hi
        have hi1 : i ≠ hd.1 := fun he => hi (he ▸ List.mem_cons_self _ _)
        have hi2 : i ∉ rest.map (fun x => x.1) :=
          fun hm => hi (List.mem_cons_of_mem _ hm)
        rw [hother i hi2, getD_set_of_ne arr hd.1 i v default
          (fun he => hi1 he.symm)]
      · intro x hx
        rcases List.mem_cons.mp hx with rfl | hx
        · rw [hother x.1 hhd_notin,
            getD_set_self arr x.1 v default hhd_lt, hvval]
        · exact hsel x hx

/-- The uncertainty slot produced by the CAM loop: absent when no method was
requested, and a present `get_uncertainty` result for the two valid method
names. -/
lemma process_frame_snd {I : Type} [Inhabited I] (ctx : EvalCtx I)
    (ci : Nat) (z : ℚ) (dims : Nat × Nat) (um : Option String) (b : Nat)
    (hum : um = none ∨ um = some "epistemic" ∨ um = some "aleatoric") :
    (um = none → (process_frame ctx ci z dims um b).2 = none) ∧
      (∀ m, um = some m → ∃ pr,
        (process_frame ctx ci z dims um b).2 = some (some pr)) := by
  constructor
  · rintro rfl
    rfl
  · rintro m rfl
    rcases hum with h | h | h
    · exact absurd h (by simp)
    · rw [Option.some_inj] at h
      subst h
      refine ⟨uncertainty_tail (ctx.dropout_models.getD
        (frame_model_idx ctx.predictions b ci) (fun _ => [])) ctx.sqrtF
        ctx.confToPrec (ctx.image_arr.getD b default) 10, ?_⟩
      show some (get_uncertainty ctx.models ctx.dropout_models ctx.augment
        ctx.sqrtF ctx.confToPrec (frame_model_idx ctx.predictions b ci)
        (ctx.image_arr.getD b default) 10 "epistemic") = _
      unfold get_uncertainty
      rw [if_pos rfl]
    · rw [Option.some_inj] at h
      subst h
      refine ⟨uncertainty_tail (ctx.models.getD
        (frame_model_idx ctx.predictions b ci) (fun _ => [])) ctx.sqrtF
        ctx.confToPrec (ctx.augment (ctx.image_arr.getD b default)) 10, ?_⟩
      show some (get_uncertainty ctx.models ctx.dropout_models ctx.augment
        ctx.sqrtF ctx.confToPrec (frame_model_idx ctx.predictions b ci)
        (ctx.image_arr.getD b default) 10 "aleatoric") = _
      unfold get_uncertainty
      rw [if_neg (by decide), if_pos rfl]

/-- C9.  With a save path, and either no uncertainty or a valid uncertainty
method (with its mandatory `(1000, 1000)` dimensions), the run succeeds and
produces a frame array of the video's length in which every selected frame's
slot holds its CAM — with the precision-gauge overlay applied exactly when
uncertainty was requested — and every non-selected slot holds the original
frame resized and scaled to display range, unchanged by the loop. -/
theorem output_replaces_selected_frames_only {I : Type} [Inhabited I]
    (ctx : EvalCtx I) (t : ℚ) (nr : Option Nat) (z : ℚ) (path : String)
    (um : Option String) (dims : Nat × Nat)
    (hum : um = none ∨ ((um = some "epistemic" ∨ um = some "aleatoric")
      ∧ dims = (1000, 1000)))
    (hlen : (video_mean_preds ctx).length ≤ ctx.image_arr.length) :
    ∃ out,
      cam_important_frames ctx t nr z (some path) um dims =
        Except.ok (CamOutput.video out) ∧
      out.length = ctx.image_arr.length ∧
      (∀ i, i < ctx.image_arr.length → i ∉ video_best_frames ctx t nr →
        out.getD i default =
          ctx.resizeScale (ctx.image_arr.getD i default) dims) ∧
      (∀ b ∈ video_best_frames ctx t nr,
        (um = none →
          out.getD b default =
            (process_frame ctx (video_class_idx ctx) z dims um b).1) ∧
        (∀ m, um = some m → ∃ pr,
          (process_frame ctx (video_class_idx ctx) z dims um b).2 =
            some (some pr) ∧
          out.getD b default =
            ctx.overlay
              (process_frame ctx (video_class_idx ctx) z dims um b).1
              pr.1)) := by
  have hum' : um = none ∨ um = some "epistemic" ∨ um = some "aleatoric" := by
    rcases hum with h | ⟨h, _⟩
    · exact Or.inl h
    · exact Or.inr h
  have hguard : ¬(um.isSome ∧ dims ≠ (1000, 1000)) := by
    rcases hum with rfl | ⟨_, rfl⟩
    · rintro ⟨hs, _⟩
      simp at hs
    · rintro ⟨_, hd⟩
      exact hd rfl
  have hcollen : (video_class_col ctx).length = (video_mean_preds ctx).length := by
    unfold video_class_col
    rw [List.length_map]
  have hcam : cam_important_frames ctx t nr z (some path) um dims =
      (compose_output ctx.overlay
        ((video_best_frames ctx t nr).map
          (fun b => (b, process_frame ctx (video_class_idx ctx) z dims um b)))
        (ctx.image_arr.map (fun img => ctx.resizeScale img dims))).map
        CamOutput.video := by
    unfold cam_important_frames
    rw [if_neg hguard]
  have hmap : (((video_best_frames ctx t nr).map
      (fun b => (b, process_frame ctx (video_class_idx ctx) z dims um b))).map
        (fun x => x.1)) = video_best_frames ctx t nr := by
    rw [List.map_map]
    exact List.map_id' _
  have hno : ∀ x ∈ (video_best_frames ctx t nr).map
      (fun b => (b, process_frame ctx (video_class_idx ctx) z dims um b)),
      x.2.2 ≠ some none := by
    intro x hx
    obtain ⟨b, hb, rfl⟩ := List.mem_map.mp hx
    obtain ⟨h0, hsome⟩ := process_frame_snd ctx (video_class_idx ctx) z dims
      um b hum'
    rcases hum' with rfl | h | h
    · rw [h0 rfl]
      simp
    · obtain ⟨pr, hpr⟩ := hsome "epistemic" h
      rw [hpr]
      simp
    · obtain ⟨pr, hpr⟩ := hsome "aleatoric" h
      rw [hpr]
      simp
  have hnd : (((video_best_frames ctx t nr).map
      (fun b => (b, process_frame ctx (video_class_idx ctx) z dims um b))).map
        (fun x => x.1)).Nodup := by
    rw [hmap]
    exact select_frames_nodup _ _ _
  have hlt : ∀ x ∈ (video_best_frames ctx t nr).map
      (fun b => (b, process_frame ctx (video_class_idx ctx) z dims um b)),
      x.1 < (ctx.image_arr.map (fun img => ctx.resizeScale img dims)).length := by
    intro x hx
    obtain ⟨b, hb, rfl⟩ := List.mem_map.mp hx
    have hb' := select_frames_mem_lt _ _ _ b hb
    rw [hcollen] at hb'
    rw [List.length_map]
    exact Nat.lt_of_lt_of_le hb' hlen
  obtain ⟨out, hout, hlen', hother, hsel⟩ :=
    compose_output_ok ctx.overlay _ _ hno hnd hlt
  refine ⟨out, ?_, ?_, ?_, ?_⟩
  · rw [hcam, hout]
    rfl
  · rw [hlen', List.length_map]
  · intro i hi hibest
    have hi' : i ∉ ((video_best_frames ctx t nr).map
        (fun b => (b, process_frame ctx (video_class_idx ctx) z dims um b))).map
          (fun x => x.1) := by
      rw [hmap]
      exact hibest
    rw [hother i hi', getD_map_lt _ _ _ _ default hi]
  · intro b hb
    have hxmem : (b, process_frame ctx (video_class_idx ctx) z dims um b) ∈
        (video_best_frames ctx t nr).map
          (fun b => (b, process_frame ctx (video_class_idx ctx) z dims um b)) :=
      List.mem_map.mpr ⟨b, hb, rfl⟩
    have hval := hsel _ hxmem
    obtain ⟨h0, hsome⟩ := process_frame_snd ctx (video_class_idx ctx) z dims
      um b hum'
    constructor
    · intro h
      rw [hval]
      unfold compose_final
      rw [h0 h]
    · intro m hm
      obtain ⟨pr, hpr⟩ := hsome m hm
      refine ⟨pr, hpr, ?_⟩
      rw [hval]
      unfold compose_final
      rw [hpr]

/-- Witness for `output_replaces_selected_frames_only`: the demo evaluator,
threshold mode with no uncertainty, saving to a path. -/
theorem output_replaces_selected_frames_only_witness :
    ∃ out,
      cam_important_frames demoCtx (7 : ℚ) none (13 : ℚ) (some "out") none
          (224, 224) =
        Except.ok (CamOutput.video out) ∧
      out.length = demoCtx.image_arr.length ∧
      (∀ i, i < demoCtx.image_arr.length →
        i ∉ video_best_frames demoCtx (7 : ℚ) none →
        out.getD i default =
          demoCtx.resizeScale (demoCtx.image_arr.getD i default) (224, 224)) ∧
      (∀ b ∈ video_best_frames demoCtx (7 : ℚ) none,
        ((none : Option String) = none →
          out.getD b default =
            (process_frame demoCtx (video_class_idx demoCtx) (13 : ℚ)
              (224, 224) none b).1) ∧
        (∀ m, (none : Option String) = some m → ∃ pr,
          (process_frame demoCtx (video_class_idx demoCtx) (13 : ℚ)
              (224, 224) none b).2 = some (some pr) ∧
          out.getD b default =
            demoCtx.overlay
              (process_frame demoCtx (video_class_idx demoCtx) (13 : ℚ)
                (224, 224) none b).1 pr.1)) :=
  output_replaces_selected_frames_only demoCtx (7 : ℚ) none (13 : ℚ) "out"
    none (224, 224) (Or.inl rfl)
    (by simp [video_mean_preds, meanMatrices, demoCtx])

/-- A failed uncertainty lookup (`some none`) at the head of the composition
loop aborts the run with the `TypeError`. -/
lemma compose_output_cons_some_none {I : Type} [Inhabited I]
    (overlay : I → ℚ → I) (x : Nat × I × Option (Option (ℚ × String)))
    (rest : List (Nat × I × Option (Option (ℚ × String)))) (arr : List I)
    (h : x.2.2 = some none) :
    compose_output overlay (x :: rest) arr =
      Except.error "TypeError: NoneType object is not subscriptable" := by
  show (match x.2.2 with
    | none => compose_output overlay rest (arr.set x.1 x.2.1)
    | some none =>
        Except.error "TypeError: NoneType object is not subscriptable"
    | some (some pr) =>
        compose_output overlay rest
          ((arr.set x.1 x.2.1).set x.1
            (overlay ((arr.set x.1 x.2.1).getD x.1 default) pr.1))) = _
  rw [h]

/-- C10.  A concrete run at the public interface: one model predicting
`[9, 1]` on a one-frame video, threshold 7 (so frame 0 is selected), a save
path, dimensions `(1000, 1000)` (passing the guard), and the invalid
uncertainty method `"dropout"`.  `get_uncertainty` returns `None`, that
`None` is appended to the per-frame precision list, and the overlay step's
`precision_best_frames[j][0]` subscripts it, so the run aborts with the
`TypeError` instead of producing output. -/
theorem invalid_method_with_save_path_aborts :
    cam_important_frames demoCtx (7 : ℚ) none (13 : ℚ) (some "out")
        (some "dropout") (1000, 1000) =
      Except.error "TypeError: NoneType object is not subscriptable" := by
  have h1 : video_mean_preds demoCtx = [[9, 1]] := by
    norm_num [video_mean_preds, meanMatrices, demoCtx, List.range_succ]
  have h2 : video_class_idx demoCtx = 0 := by
    rw [video_class_idx, h1]
    norm_num [predicted_class_idx, meanAxis0, argmax, List.range_succ]
  have h3 : video_class_col demoCtx = [9] := by
    rw [video_class_col, h1, h2]
    norm_num
  have h4 : video_best_frames demoCtx (7 : ℚ) none = [0] := by
    rw [video_best_frames, h3]
    norm_num [select_frames, npWhereGt, List.range_succ, List.filter]
  have h5 : (process_frame demoCtx 0 (13 : ℚ) (1000, 1000)
      (some "dropout") 0).2 = some none := by
    show some (get_uncertainty demoCtx.models demoCtx.dropout_models
      demoCtx.augment demoCtx.sqrtF demoCtx.confToPrec
      (frame_model_idx demoCtx.predictions 0 0)
      (demoCtx.image_arr.getD 0 default) 10 "dropout") = some none
    unfold get_uncertainty
    rw [if_neg (by decide), if_neg (by decide)]
  unfold cam_important_frames
  rw [if_neg (by simp)]
  show (compose_output demoCtx.overlay
      ((video_best_frames demoCtx (7 : ℚ) none).map
        (fun b => (b, process_frame demoCtx (video_class_idx demoCtx) (13 : ℚ)
          (1000, 1000) (some "dropout") b)))
      (demoCtx.image_arr.map
        (fun img => demoCtx.resizeScale img (1000, 1000)))).map
      CamOutput.video = _
  rw [h4, h2, List.map_cons, List.map_nil]
  rw [compose_output_cons_some_none demoCtx.overlay _ _ _ h5]
  rfl

end PocovidNet
